import Mathlib

/-!
Shallow embedding of the incremental-upload core of fmu-sumo-uploader
(src/fmu/sumo/uploader): the manifest/ledger checkpointing, start-index
selection, upload-result classification, the upload-engine pre-pass,
FileOnDisk construction and datetime sanitization.
-/

namespace FmuSumo

/-! ## Python-like structured values

`yaml.safe_load` / `json.load` produce nested dictionaries, lists and
scalars; `datetime.datetime` objects can additionally appear in parsed
YAML.  A datetime object is represented by the string its `isoformat()`
method returns. -/

inductive PyVal where
  | datetime (iso : String)
  | str (s : String)
  | num (n : Int)
  | dict (entries : List (String × PyVal))
  | list (elems : List PyVal)
deriving Repr

mutual

/-- Embeds `_sanitize_datetimes` (src/fmu/sumo/uploader/_sumocase.py):
`isinstance(data, datetime.datetime)` yields the isoformat string, dicts
have every value sanitized in place, lists are rebuilt element-wise, and
any other value is returned unchanged. -/
def sanitize : PyVal → PyVal
  | .datetime iso => .str iso
  | .dict entries => .dict (sanitizeFields entries)
  | .list elems => .list (sanitizeElems elems)
  | .str s => .str s
  | .num n => .num n

/-- The `for key in data: data[key] = _sanitize_datetimes(data[key])` loop. -/
def sanitizeFields : List (String × PyVal) → List (String × PyVal)
  | [] => []
  | (k, v) :: rest => (k, sanitize v) :: sanitizeFields rest

/-- The `[_sanitize_datetimes(element) for element in data]` comprehension. -/
def sanitizeElems : List PyVal → List PyVal
  | [] => []
  | v :: rest => sanitize v :: sanitizeElems rest

end

mutual

/-- `true` iff a `datetime` object occurs anywhere in the value, at any
depth, inside dict values or list elements. -/
def containsDatetime : PyVal → Bool
  | .datetime _ => true
  | .dict entries => containsDatetimeFields entries
  | .list elems => containsDatetimeElems elems
  | .str _ => false
  | .num _ => false

def containsDatetimeFields : List (String × PyVal) → Bool
  | [] => false
  | (_, v) :: rest => containsDatetime v || containsDatetimeFields rest

def containsDatetimeElems : List PyVal → Bool
  | [] => false
  | v :: rest => containsDatetime v || containsDatetimeElems rest

end

/-! ## Manifest and upload ledger

The export manifest is a JSON array of records
`{absolute_path, exported_at, exported_by}`; the upload ledger
(`.sumo_uploads.json`) is a JSON array of records
`{last_index_manifest, timestamp}`.  `exported_at` is kept as
`Option String`: `none` models a manifest record whose dictionary lacks
the `exported_at` key, so that the `KeyError` branches of the code are
representable. -/

structure ManifestEntry where
  absolute_path : String
  exported_at : Option String
  exported_by : String
deriving Repr, DecidableEq

structure LedgerEntry where
  last_index_manifest : Int
  timestamp : String
deriving Repr, DecidableEq

/-- Python list indexing `xs[i]`: a nonnegative index is looked up
directly, a negative index is first shifted by `len(xs)`, and anything
still out of range raises `IndexError`, modelled as `none`. -/
def pyGet (xs : List α) (i : Int) : Option α :=
  if 0 ≤ i then xs.get? i.toNat
  else if 0 ≤ i + xs.length then xs.get? (i + xs.length).toNat
  else none

/-- A filesystem snapshot for one JSON file: `none` when the file does
not exist at that path, otherwise its parsed contents. -/
abbrev JsonFile (α : Type) := String → Option α

inductive LoadError where
  | fileNotFound (path : String)
deriving Repr, DecidableEq

/-- Embeds `SumoCase._load_export_manifest`
(src/fmu/sumo/uploader/_sumocase.py): `raise FileNotFoundError` when the
manifest file is absent, otherwise return the parsed JSON array. -/
def loadExportManifest (fs : JsonFile (List ManifestEntry))
    (manifestPath : String) : Except LoadError (List ManifestEntry) :=
  match fs manifestPath with
  | none => .error (.fileNotFound manifestPath)
  | some manifest => .ok manifest

/-- Embeds `SumoCase._load_sumo_uploads`
(src/fmu/sumo/uploader/_sumocase.py): return `[]` when the uploads log
file is absent, otherwise return the parsed JSON array. -/
def loadSumoUploads (fs : JsonFile (List LedgerEntry))
    (uploadsPath : String) : List LedgerEntry :=
  match fs uploadsPath with
  | none => []
  | some uploads => uploads

/-- Embeds `CaseOnDisk._get_next_index`
(src/fmu/sumo/uploader/caseondisk.py).  `if not sumo_uploads or not
manifest: return 0`; then `manifest[last_uploaded_index]["exported_at"]`
is compared with the last ledger entry's `timestamp` inside a
`try`/`except` that turns `KeyError` and `IndexError` into the fallback
`return 0`. -/
def getNextIndex (manifest : List ManifestEntry)
    (sumo_uploads : List LedgerEntry) : Int :=
  match sumo_uploads.getLast? with
  | none => 0
  | some last =>
    if manifest.isEmpty then 0
    else
      match pyGet manifest last.last_index_manifest with
      | none => 0
      | some entry =>
        match entry.exported_at with
        | none => 0
        | some exportedAt =>
          if exportedAt = last.timestamp then last.last_index_manifest + 1
          else 0

/-- Embeds `SumoCase._update_sumo_uploads`
(src/fmu/sumo/uploader/_sumocase.py): reload the manifest (propagating
`FileNotFoundError`), reload the ledger, append
`{last_index_manifest: len(manifest) - 1, timestamp:
manifest[-1]["exported_at"]}` and write the result back.  `none` models
an uncaught exception (missing manifest file, `manifest[-1]` on an empty
manifest, or a last record without the `exported_at` key); `some`
returns the ledger contents written to disk. -/
def updateSumoUploads (fsManifest : JsonFile (List ManifestEntry))
    (fsUploads : JsonFile (List LedgerEntry))
    (manifestPath uploadsPath : String) :
    Option (List LedgerEntry) :=
  match loadExportManifest fsManifest manifestPath with
  | .error _ => none
  | .ok manifest =>
    let sumo_uploads := loadSumoUploads fsUploads uploadsPath
    match manifest.getLast? with
    | none => none
    | some lastRecord =>
      match lastRecord.exported_at with
      | none => none
      | some exportedAt =>
        some (sumo_uploads ++
          [{ last_index_manifest := (manifest.length : Int) - 1,
             timestamp := exportedAt }])

/-- The ledger effect of one `SumoCase.upload` cycle
(src/fmu/sumo/uploader/_sumocase.py, `if len(ok_uploads) > 0: ...
self._update_sumo_uploads()`): the ledger file is rewritten with one
appended entry exactly when at least one upload came back `ok`,
otherwise it is left untouched. -/
def uploadLedgerEffect (okUploadsCount : Nat)
    (fsManifest : JsonFile (List ManifestEntry))
    (fsUploads : JsonFile (List LedgerEntry))
    (manifestPath uploadsPath : String) : Option (List LedgerEntry) :=
  if okUploadsCount > 0 then
    updateSumoUploads fsManifest fsUploads manifestPath uploadsPath
  else
    some (loadSumoUploads fsUploads uploadsPath)

/-! ## Upload results and their classification -/

/-- One per-file upload result dictionary.  Only the `status` key is
relevant to classification; `status = none` models a result dictionary
without a `status` key, so that `r.get("status")` returns `None`. -/
structure UploadResult where
  status : Option String
deriving Repr, DecidableEq

/-- Python truthiness of `r.get("status")` for a string-or-absent value:
`None` and the empty string are falsy. -/
def statusFalsy : Option String → Bool
  | none => true
  | some s => s = ""

structure UploadBuckets where
  ok_uploads : List UploadResult
  failed_uploads : List UploadResult
  rejected_uploads : List UploadResult
deriving Repr, DecidableEq

/-- Embeds the classification loop of `upload_files`
(src/fmu/sumo/uploader/_upload_files.py): for each result in order,
`status = r.get("status")`; `if not status: raise ValueError(...)`;
`"ok"` results are appended to `ok_uploads`, `"rejected"` to
`rejected_uploads`, anything else to `failed_uploads`.  `Except.error`
models the raised `ValueError`. -/
def classifyResults : List UploadResult → Except String UploadBuckets
  | [] => .ok { ok_uploads := [], failed_uploads := [], rejected_uploads := [] }
  | r :: rest =>
    match r.status with
    | none => .error "File upload result returned with no status attribute"
    | some s =>
      if s = "" then
        .error "File upload result returned with no status attribute"
      else
        match classifyResults rest with
        | .error e => .error e
        | .ok buckets =>
          if s = "ok" then
            .ok { buckets with ok_uploads := r :: buckets.ok_uploads }
          else if s = "rejected" then
            .ok { buckets with
                  rejected_uploads := r :: buckets.rejected_uploads }
          else
            .ok { buckets with failed_uploads := r :: buckets.failed_uploads }

/-! ## The value `SumoCase.upload` returns

`upload()` assembles a summary dictionary, sends it to the Sumo logger,
and then executes `return ok_uploads`. -/

/-- The dynamically typed `upload_statistics` variable: the empty string
when no upload succeeded, otherwise the timing statistics
`_calculate_upload_stats(ok_uploads)` (whose floating-point contents are
outside this embedding and represented by the list they are computed
from). -/
inductive StatsField where
  | emptyString
  | computedFrom (okUploads : List UploadResult)
deriving Repr, DecidableEq

/-- The `upload_summary` dictionary built by `SumoCase.upload`
(src/fmu/sumo/uploader/_sumocase.py): every count is stringified with
`str(...)`, `parent_id` is the case's `sumo_parent_id` property. -/
structure UploadSummary where
  parent_id : Option String
  total_files_count : String
  ok_files : String
  failed_files : String
  rejected_files : String
  wall_time_seconds : String
  upload_statistics : StatsField
  sumo_mode : String
deriving Repr, DecidableEq

/-- The possible values `SumoCase.upload` hands back to its caller.
`emptyDict` is the early `return {}`; `okList` is `return ok_uploads`;
`summaryObject` is the shape the specification describes, included so
that the claim about the return value can be stated. -/
inductive UploadReturn where
  | emptyDict
  | okList (ok : List UploadResult)
  | summaryObject (s : UploadSummary)
deriving Repr, DecidableEq

def UploadReturn.isSummaryObject : UploadReturn → Bool
  | .summaryObject _ => true
  | _ => false

/-- Embeds the summary construction and return statement of
`SumoCase.upload` (src/fmu/sumo/uploader/_sumocase.py).  `files` is
`self.files`, `buckets` the classified results of `upload_files`,
`wallTime` the stringified wall-clock duration.  The first component is
the summary dictionary passed to `self._sumo_logger.info` (`none` on the
early `return {}` path); the second is the value returned to the caller. -/
def uploadOutcome (files : List α) (buckets : UploadBuckets)
    (parentId : Option String) (sumoMode : String) (wallTime : String) :
    Option UploadSummary × UploadReturn :=
  if files.isEmpty then (none, .emptyDict)
  else
    let ok := buckets.ok_uploads
    let stats := if ok.length > 0 then StatsField.computedFrom ok
                 else StatsField.emptyString
    let summary : UploadSummary :=
      { parent_id := parentId
        total_files_count := toString files.length
        ok_files := toString ok.length
        failed_files := toString buckets.failed_uploads.length
        rejected_files := toString buckets.rejected_uploads.length
        wall_time_seconds := wallTime
        upload_statistics := stats
        sumo_mode := sumoMode }
    (some summary, .okList ok)

/-! ## The upload-engine pre-pass of `_upload_files`

Before the thread-pool fan-out, `_upload_files`
(src/fmu/sumo/uploader/_upload_files.py) scans for the first file whose
metadata has `fmu.realization`; for it, the call to
`maybe_upload_realization_and_ensemble` is wrapped in `try`/`except`
blocks that log and `pass`, while the subsequent parameters-file
bootstrap (`get_parameter_file` and the `/search` query) runs outside
any handler. -/

/-- What `_upload_files` needs of one staged file:
whether `"fmu" in file.metadata and "realization" in
file.metadata["fmu"]`, and the value of
`file.metadata["fmu"]["realization"]["uuid"]` (`none` models a missing
`uuid` key, whose `KeyError` is raised outside any handler). -/
structure JobFile where
  hasFmuRealization : Bool
  realizationUuid : Option String
deriving Repr, DecidableEq

inductive PyErr where
  | keyError
  | raised (msg : String)
deriving Repr, DecidableEq

/-- Outcomes of the external calls the pre-pass makes, one upload cycle's
worth.  `ensembleStep` is the outcome of
`maybe_upload_realization_and_ensemble` (network calls against the
remote service); `parameterFile` is the outcome of
`get_parameter_file` (`.ok none` when that function caught a missing
file itself and returned `None`, `.error` when it raised);
`parameterSearch` is the outcome of the `/search` request for an
existing parameters object, `true` meaning the file must be uploaded
(no hit, or differing `blob_md5`). -/
structure PrePassEnv where
  ensembleStep : Except PyErr Unit
  parameterFile : Except PyErr (Option JobFile)
  parameterSearch : Except PyErr Bool
deriving Repr

/-- The part of the pre-pass after the guarded
`maybe_upload_realization_and_ensemble` call: the parameters-file
bootstrap, outside any exception handler. -/
def parametersBootstrap (files : List JobFile) (env : PrePassEnv) :
    Except PyErr (List JobFile) :=
  match env.parameterFile with
  | .error e => .error e
  | .ok none => .ok files
  | .ok (some paramfile) =>
    match env.parameterSearch with
    | .error e => .error e
    | .ok mustUpload =>
      if mustUpload then .ok (files ++ [paramfile]) else .ok files

/-- Embeds the pre-pass loop of `_upload_files`
(src/fmu/sumo/uploader/_upload_files.py, the `for file in files` loop
ending in `break`): the first file with an `fmu.realization` block
triggers at most one bootstrap; exceptions of
`maybe_upload_realization_and_ensemble` are logged and swallowed;
exceptions of the parameters bootstrap propagate; a parameters file that
is absent remotely (or changed) is appended to the upload list. -/
def prePass (files : List JobFile) (env : PrePassEnv) :
    Except PyErr (List JobFile) :=
  match files.find? (·.hasFmuRealization) with
  | none => .ok files
  | some f =>
    match f.realizationUuid with
    | none => .error .keyError
    | some _realizationId =>
      match env.ensembleStep with
      | .error _ => parametersBootstrap files env
      | .ok _ => parametersBootstrap files env

/-- One fan-out task `_upload_file`: its result is keyed by the file it
uploaded.  The per-file network outcome is irrelevant to the claims and
abstracted by the injected function in `uploadFilesOutcome`. -/
def uploadFilesOutcome (files : List JobFile) (env : PrePassEnv)
    (uploadOne : JobFile → UploadResult) :
    Except PyErr (List UploadResult) :=
  match prePass files env with
  | .error e => .error e
  | .ok staged => .ok (staged.map uploadOne)

/-- The records the pre-pass appends to the batch on a non-aborting run:
the synthetic parameters record, exactly when a file qualifies for the
bootstrap, `get_parameter_file` returned one and the remote search said
it is new or changed. -/
def prePassExtra (files : List JobFile) (env : PrePassEnv) : List JobFile :=
  match files.find? (·.hasFmuRealization) with
  | none => []
  | some _ =>
    match env.parameterFile with
    | .ok (some paramfile) =>
      match env.parameterSearch with
      | .ok true => [paramfile]
      | _ => []
    | _ => []

/-! ## FileOnDisk construction

`FileOnDisk.__init__` (src/fmu/sumo/uploader/_fileondisk.py) parses the
companion YAML, reads the data file's bytes, and injects
`metadata["_sumo"] = {blob_size, blob_md5}`.  `hashlib.md5` and
`base64.b64encode` are external library collaborators and enter the
model as function parameters; the filesystem enters as maps from path to
contents. -/

/-- Python dict assignment `d[k] = v` on a string-keyed mapping:
overwrite the existing binding or append a new one. -/
def dictSet (entries : List (String × PyVal)) (k : String) (v : PyVal) :
    List (String × PyVal) :=
  if entries.any (fun kv => kv.1 = k) then
    entries.map (fun kv => if kv.1 = k then (k, v) else kv)
  else
    entries ++ [(k, v)]

/-- Python dict lookup `d[k]` on a string-keyed mapping. -/
def dictGet (entries : List (String × PyVal)) (k : String) : Option PyVal :=
  (entries.find? (fun kv => kv.1 = k)).map (fun kv => kv.2)

/-- The two-level Python lookup `d[k1][k2]`, defined when `d[k1]` is a
mapping holding `k2`. -/
def dictGet2 (entries : List (String × PyVal)) (k1 k2 : String) :
    Option PyVal :=
  match dictGet entries k1 with
  | some (.dict inner) => dictGet inner k2
  | _ => none

structure FileOnDisk where
  metadata_path : String
  path : String
  metadata : List (String × PyVal)
  byte_string : List UInt8
deriving Repr

/-- Embeds `FileOnDisk.__init__` (src/fmu/sumo/uploader/_fileondisk.py).
`parseYamlFs path = some mapping` models `parse_yaml` succeeding on the
metadata file, `readFs path = some bytes` models
`file_to_byte_string(path)`; either failing raises, modelled as `none`.
The metadata mutation sequence is `self.metadata["_sumo"] = {}`, then
`["_sumo"]["blob_size"] = len(self.byte_string)`, then
`["_sumo"]["blob_md5"] = base64.b64encode(md5(byte_string).digest())`. -/
def fileOnDiskInit (md5digest : List UInt8 → List UInt8)
    (b64encode : List UInt8 → String)
    (parseYamlFs : String → Option (List (String × PyVal)))
    (readFs : String → Option (List UInt8))
    (path metadataPath : String) : Option FileOnDisk :=
  match parseYamlFs metadataPath with
  | none => none
  | some parsedMetadata =>
    match readFs path with
    | none => none
    | some bytes =>
      let md0 := dictSet parsedMetadata "_sumo" (.dict [])
      let sumoBlock := dictSet [] "blob_size" (.num (bytes.length : Int))
      let sumoBlock := dictSet sumoBlock "blob_md5"
        (.str (b64encode (md5digest bytes)))
      some { metadata_path := metadataPath
             path := path
             metadata := dictSet md0 "_sumo" (.dict sumoBlock)
             byte_string := bytes }

/-! ## Aliasing model for `upload()` and the staged file list

`SumoCase.upload` executes `files_to_upload = list(self.files)` and
passes the copy to `upload_files`, whose pre-pass may execute
`files.append(paramfile)` on its argument.  To state that `self.files`
is never mutated, Python lists are modelled as references into a heap of
list cells. -/

abbrev Ref := Nat

structure Heap (α : Type) where
  cells : List (List α)
deriving Repr

/-- Dereference a list object; reading a dangling reference is benign
here and yields `[]`. -/
def Heap.read (h : Heap α) (r : Ref) : List α :=
  (h.cells[r]?).getD []

/-- `list(xs)`: allocate a fresh list object holding a copy of the
contents of `xs`. -/
def Heap.allocCopy (h : Heap α) (r : Ref) : Heap α × Ref :=
  ({ cells := h.cells ++ [h.read r] }, h.cells.length)

/-- `xs.append(x)`: in-place mutation of the referenced list object. -/
def Heap.append1 (h : Heap α) (r : Ref) (x : α) : Heap α :=
  { cells := h.cells.set r (h.read r ++ [x]) }

/-- The file-list effect of one `SumoCase.upload` call
(src/fmu/sumo/uploader/_sumocase.py: `files_to_upload =
list(self.files)` handed to `upload_files`, whose pre-pass in
src/fmu/sumo/uploader/_upload_files.py may run
`files.append(paramfile)`).  `selfFiles` is the reference held by the
case's `files` attribute; `inject` is the synthetic parameters record
when the pre-pass decides to add one.  Returns the final heap and the
list the fan-out iterates over. -/
def uploadFileListEffect (h : Heap α) (selfFiles : Ref)
    (inject : Option α) : Heap α × List α :=
  let (h1, files_to_upload) := h.allocCopy selfFiles
  match inject with
  | some paramfile =>
    let h2 := h1.append1 files_to_upload paramfile
    (h2, h2.read files_to_upload)
  | none => (h1, h1.read files_to_upload)

/-! ## Theorems -/

/-- C7: loading the export manifest fails with a not-found error when
the manifest file is absent, whereas loading the upload ledger returns
the empty sequence (not an error) when its file is absent. -/
theorem manifest_absent_errors_ledger_absent_empty
    (fsManifest : JsonFile (List ManifestEntry))
    (fsUploads : JsonFile (List LedgerEntry))
    (manifestPath uploadsPath : String)
    (hM : fsManifest manifestPath = none)
    (hL : fsUploads uploadsPath = none) :
    loadExportManifest fsManifest manifestPath =
      .error (.fileNotFound manifestPath) ∧
    loadSumoUploads fsUploads uploadsPath = [] := by
  constructor
  · simp [loadExportManifest, hM]
  · simp [loadSumoUploads, hL]

theorem manifest_absent_errors_ledger_absent_empty_witness :
    loadExportManifest (fun _ => none) "share/.dataio_export_manifest.json" =
      .error (.fileNotFound "share/.dataio_export_manifest.json") ∧
    loadSumoUploads (fun _ => none) "share/.sumo_uploads.json" = [] :=
  manifest_absent_errors_ledger_absent_empty _ _ _ _ rfl rfl

/-- C1: an upload cycle with at least one `ok` upload appends exactly one
ledger entry, whose `last_index_manifest` is the index of the last
manifest record present when the manifest was loaded and whose
`timestamp` is that record's `exported_at`; a cycle with zero `ok`
uploads leaves the ledger unchanged. -/
theorem ledger_entry_appended_iff_ok_uploads (okUploadsCount : Nat)
    (fsManifest : JsonFile (List ManifestEntry))
    (fsUploads : JsonFile (List LedgerEntry))
    (manifestPath uploadsPath : String)
    (manifest : List ManifestEntry) (lastRecord : ManifestEntry)
    (exportedAt : String)
    (hM : fsManifest manifestPath = some manifest)
    (hLast : manifest.getLast? = some lastRecord)
    (hTs : lastRecord.exported_at = some exportedAt) :
    (okUploadsCount > 0 →
      uploadLedgerEffect okUploadsCount fsManifest fsUploads
          manifestPath uploadsPath =
        some (loadSumoUploads fsUploads uploadsPath ++
          [{ last_index_manifest := (manifest.length : Int) - 1,
             timestamp := exportedAt }])) ∧
    (okUploadsCount = 0 →
      uploadLedgerEffect okUploadsCount fsManifest fsUploads
          manifestPath uploadsPath =
        some (loadSumoUploads fsUploads uploadsPath)) := by
  constructor
  · intro hok
    simp [uploadLedgerEffect, hok, updateSumoUploads, loadExportManifest,
      hM, hLast, hTs]
  · intro hzero
    simp [uploadLedgerEffect, hzero]

theorem ledger_entry_appended_iff_ok_uploads_witness :
    uploadLedgerEffect 1
        (fun _ => some
          [{ absolute_path := "/scratch/a.bin", exported_at := some "2025-01-01T00:00:00Z",
             exported_by := "user" }])
        (fun _ => some [{ last_index_manifest := -7, timestamp := "old" }])
        "manifest.json" ".sumo_uploads.json" =
      some [{ last_index_manifest := -7, timestamp := "old" },
            { last_index_manifest := 0, timestamp := "2025-01-01T00:00:00Z" }] := by
  have h := (ledger_entry_appended_iff_ok_uploads 1
    (fun _ => some
      [{ absolute_path := "/scratch/a.bin", exported_at := some "2025-01-01T00:00:00Z",
         exported_by := "user" }])
    (fun _ => some [{ last_index_manifest := -7, timestamp := "old" }])
    "manifest.json" ".sumo_uploads.json" _ _ _ rfl rfl rfl).1 (by decide)
  simpa [loadSumoUploads] using h

/-- C2: `selectStartIndex` (the embedded `_get_next_index`) returns 0
when the ledger or the manifest is empty; when the last ledger entry's
`last_index_manifest` is a valid index into the manifest (Python
indexing) and that record's `exported_at` equals the entry's
`timestamp`, it returns the index plus one; and on any lookup failure
(`IndexError`, missing `exported_at` key) or timestamp mismatch it
returns 0. -/
theorem select_start_index_characterization (manifest : List ManifestEntry)
    (ledger : List LedgerEntry) :
    ((ledger = [] ∨ manifest = []) → getNextIndex manifest ledger = 0) ∧
    (∀ last entry exportedAt,
      ledger.getLast? = some last →
      pyGet manifest last.last_index_manifest = some entry →
      entry.exported_at = some exportedAt →
      exportedAt = last.timestamp →
      getNextIndex manifest ledger = last.last_index_manifest + 1) ∧
    (∀ last, ledger.getLast? = some last →
      (pyGet manifest last.last_index_manifest = none ∨
       (∃ entry, pyGet manifest last.last_index_manifest = some entry ∧
          entry.exported_at = none) ∨
       (∃ entry exportedAt,
          pyGet manifest last.last_index_manifest = some entry ∧
          entry.exported_at = some exportedAt ∧
          exportedAt ≠ last.timestamp)) →
      getNextIndex manifest ledger = 0) := by
  refine ⟨?_, ?_, ?_⟩
  · rintro (rfl | rfl)
    · simp [getNextIndex]
    · cases h : ledger.getLast? <;> simp [getNextIndex, h]
  · intro last entry exportedAt hLast hGet hExp hTs
    have hne : manifest.isEmpty = false := by
      cases manifest
      · simp [pyGet] at hGet
      · rfl
    simp [getNextIndex, hLast, hne, hGet, hExp, hTs]
  · intro last hLast hbad
    by_cases hm : manifest.isEmpty
    · simp [getNextIndex, hLast, hm]
    · rcases hbad with h | ⟨entry, hGet, hExp⟩ |
        ⟨entry, exportedAt, hGet, hExp, hne⟩
      · simp [getNextIndex, hLast, hm, h]
      · simp [getNextIndex, hLast, hm, hGet, hExp]
      · simp [getNextIndex, hLast, hm, hGet, hExp, hne]

theorem select_start_index_characterization_witness :
    getNextIndex
      [{ absolute_path := "/a", exported_at := some "t0", exported_by := "u" },
       { absolute_path := "/b", exported_at := some "t1", exported_by := "u" }]
      [{ last_index_manifest := 0, timestamp := "t0" }] = 1 := by
  have h := (select_start_index_characterization
    [{ absolute_path := "/a", exported_at := some "t0", exported_by := "u" },
     { absolute_path := "/b", exported_at := some "t1", exported_by := "u" }]
    [{ last_index_manifest := 0, timestamp := "t0" }]).2.1
    { last_index_manifest := 0, timestamp := "t0" }
    { absolute_path := "/a", exported_at := some "t0", exported_by := "u" }
    "t0" rfl (by decide) rfl rfl
  simpa using h

/-- C9: start-index selection performs no lower-bounds check — a last
ledger entry carrying a negative `last_index_manifest` `n` with
`-len(manifest) ≤ n < 0` whose (Python negative indexing) manifest
record matches the stored timestamp makes `_get_next_index` return
`n + 1` instead of restarting at 0. -/
theorem negative_ledger_index_selects_next (manifest : List ManifestEntry)
    (ledger : List LedgerEntry) (last : LedgerEntry) (entry : ManifestEntry)
    (hLast : ledger.getLast? = some last)
    (hLower : -(manifest.length : Int) ≤ last.last_index_manifest)
    (hNeg : last.last_index_manifest < 0)
    (hGet : pyGet manifest last.last_index_manifest = some entry)
    (hTs : entry.exported_at = some last.timestamp) :
    getNextIndex manifest ledger = last.last_index_manifest + 1 := by
  have hne : manifest.isEmpty = false := by
    cases manifest
    · simp [pyGet] at hGet
    · rfl
  simp [getNextIndex, hLast, hne, hGet, hTs]

theorem negative_ledger_index_selects_next_witness :
    getNextIndex
      [{ absolute_path := "/a", exported_at := some "t0", exported_by := "u" },
       { absolute_path := "/b", exported_at := some "t1", exported_by := "u" }]
      [{ last_index_manifest := -2, timestamp := "t0" }] = -1 := by
  have h := negative_ledger_index_selects_next
    [{ absolute_path := "/a", exported_at := some "t0", exported_by := "u" },
     { absolute_path := "/b", exported_at := some "t1", exported_by := "u" }]
    [{ last_index_manifest := -2, timestamp := "t0" }]
    { last_index_manifest := -2, timestamp := "t0" }
    { absolute_path := "/a", exported_at := some "t0", exported_by := "u" }
    rfl (by decide) (by decide) (by decide) rfl
  simpa using h

/-- C3 (counterexample): at a concrete staged batch with one `ok`
result, the value `upload()` hands back to its caller is the list of ok
results (`return ok_uploads`), not the `{upload_summary: ...}` object
the specification describes. -/
theorem upload_return_value_cex :
    (uploadOutcome [()]
        { ok_uploads := [{ status := some "ok" }], failed_uploads := [],
          rejected_uploads := [] }
        (some "parent-uuid") "copy" "0.1").2 =
      .okList [{ status := some "ok" }] ∧
    ((uploadOutcome [()]
        { ok_uploads := [{ status := some "ok" }], failed_uploads := [],
          rejected_uploads := [] }
        (some "parent-uuid") "copy" "0.1").2).isSummaryObject = false :=
  ⟨rfl, rfl⟩

/-- C3 (amended): after an upload cycle with staged files, `upload()`
builds the summary object of the shape `{upload_summary: {parent_id,
total_files_count, ok_files, failed_files, rejected_files,
wall_time_seconds, upload_statistics, sumo_mode}}` and sends it to the
Sumo logger, but it returns the list of ok upload results to its
caller. -/
theorem upload_summary_shape_and_return (files : List α)
    (buckets : UploadBuckets) (parentId : Option String)
    (sumoMode wallTime : String) (h : files ≠ []) :
    uploadOutcome files buckets parentId sumoMode wallTime =
      (some { parent_id := parentId,
              total_files_count := toString files.length,
              ok_files := toString buckets.ok_uploads.length,
              failed_files := toString buckets.failed_uploads.length,
              rejected_files := toString buckets.rejected_uploads.length,
              wall_time_seconds := wallTime,
              upload_statistics :=
                if buckets.ok_uploads.length > 0 then
                  StatsField.computedFrom buckets.ok_uploads
                else StatsField.emptyString,
              sumo_mode := sumoMode },
       .okList buckets.ok_uploads) := by
  cases files with
  | nil => exact absurd rfl h
  | cons a t => simp [uploadOutcome]

theorem upload_summary_shape_and_return_witness :
    uploadOutcome [()]
        { ok_uploads := [{ status := some "ok" }], failed_uploads := [],
          rejected_uploads := [] }
        (some "parent-uuid") "copy" "0.1" =
      (some { parent_id := some "parent-uuid",
              total_files_count := "1",
              ok_files := "1",
              failed_files := "0",
              rejected_files := "0",
              wall_time_seconds := "0.1",
              upload_statistics := .computedFrom [{ status := some "ok" }],
              sumo_mode := "copy" },
       .okList [{ status := some "ok" }]) := by
  have h := upload_summary_shape_and_return [()]
    { ok_uploads := [{ status := some "ok" }], failed_uploads := [],
      rejected_uploads := [] }
    (some "parent-uuid") "copy" "0.1" (by simp)
  simpa using h

/-- C10: `upload()` never mutates the staged file list of the case — the
list object held by the case's `files` attribute dereferences to the
same sequence after the call, even when a synthetic parameters record is
injected into the batch, because `files_to_upload = list(self.files)`
copies the list and the pre-pass appends only to that copy. -/
theorem upload_preserves_case_files (h : Heap α) (selfFiles : Ref)
    (inject : Option α) (hr : selfFiles < h.cells.length) :
    (uploadFileListEffect h selfFiles inject).1.read selfFiles =
      h.read selfFiles ∧
    (∀ paramfile, inject = some paramfile →
      (uploadFileListEffect h selfFiles inject).2 =
        h.read selfFiles ++ [paramfile]) := by
  have hne : h.cells.length ≠ selfFiles := Nat.ne_of_gt hr
  have hfresh : (h.cells ++ [h.cells[selfFiles]?.getD []])[h.cells.length]? =
      some (h.cells[selfFiles]?.getD []) := List.getElem?_concat_length _ _
  cases inject with
  | none =>
    refine ⟨?_, ?_⟩
    · simp only [uploadFileListEffect, Heap.allocCopy, Heap.read]
      rw [List.getElem?_append_left hr]
    · intro paramfile hp
      cases hp
  | some p =>
    refine ⟨?_, ?_⟩
    · simp only [uploadFileListEffect, Heap.allocCopy, Heap.append1,
        Heap.read]
      rw [List.getElem?_set_ne hne, List.getElem?_append_left hr]
    · intro paramfile hp
      cases hp
      simp only [uploadFileListEffect, Heap.allocCopy, Heap.append1,
        Heap.read]
      rw [List.getElem?_set_eq_of_lt _ (by simp)]
      simp [hfresh]

theorem upload_preserves_case_files_witness :
    (uploadFileListEffect (α := String) { cells := [["a.bin", "b.bin"]] } 0
        (some "parameters")).1.read 0 = ["a.bin", "b.bin"] ∧
    (uploadFileListEffect (α := String) { cells := [["a.bin", "b.bin"]] } 0
        (some "parameters")).2 = ["a.bin", "b.bin", "parameters"] := by
  have h := upload_preserves_case_files
    (α := String) { cells := [["a.bin", "b.bin"]] } 0 (some "parameters")
    (by decide)
  exact ⟨by simpa [Heap.read] using h.1,
    by simpa [Heap.read] using h.2 "parameters" rfl⟩

/-- C4 (counterexample): a result whose `status` key is present but
holds the empty string does not lack the field, yet classification
aborts the batch with the `ValueError` instead of placing the result in
a bucket, because the code tests Python truthiness (`if not status`)
rather than key presence. -/
theorem classify_empty_string_status_cex :
    classifyResults [{ status := some "" }] =
      .error "File upload result returned with no status attribute" ∧
    ({ status := some "" } : UploadResult).status ≠ none :=
  ⟨rfl, by simp⟩

/-- C4 (amended): classification aborts the whole batch by raising
exactly when some result's `status` is missing or falsy (the empty
string); when every result carries a truthy status, every result is
placed into exactly one bucket — `ok` results into `ok_uploads`,
`rejected` results into `rejected_uploads`, and everything else into
`failed_uploads`. -/
theorem classify_partition_or_abort (results : List UploadResult) :
    ((∀ r ∈ results, statusFalsy r.status = false) →
      classifyResults results = .ok
        { ok_uploads := results.filter (fun r => decide (r.status = some "ok")),
          failed_uploads := results.filter (fun r =>
            decide (r.status ≠ some "ok" ∧ r.status ≠ some "rejected")),
          rejected_uploads := results.filter (fun r =>
            decide (r.status = some "rejected")) }) ∧
    ((∃ r ∈ results, statusFalsy r.status = true) →
      ∃ msg, classifyResults results = .error msg) := by
  induction results with
  | nil =>
    constructor
    · intro _; rfl
    · rintro ⟨r, hr, _⟩; cases hr
  | cons r rest ih =>
    constructor
    · intro hall
      have hr := hall r (List.mem_cons_self r rest)
      have hrest : ∀ x ∈ rest, statusFalsy x.status = false :=
        fun x hx => hall x (List.mem_cons_of_mem r hx)
      have hrec := ih.1 hrest
      obtain ⟨s, hs⟩ : ∃ s, r.status = some s := by
        cases h : r.status with
        | none => rw [h] at hr; simp [statusFalsy] at hr
        | some s => exact ⟨s, rfl⟩
      have hsne : ¬s = "" := by
        intro he
        rw [hs, he] at hr
        simp [statusFalsy] at hr
      by_cases hok : s = "ok"
      · subst hok
        simp [classifyResults, hs, hrec, List.filter_cons]
      · by_cases hrej : s = "rejected"
        · subst hrej
          simp [classifyResults, hs, hrec, List.filter_cons]
        · simp [classifyResults, hs, hrec, List.filter_cons, hsne, hok,
            hrej]
    · rintro ⟨x, hx, hfalsy⟩
      rcases List.mem_cons.mp hx with rfl | hx'
      · cases h : x.status with
        | none =>
          exact ⟨"File upload result returned with no status attribute",
            by simp [classifyResults, h]⟩
        | some s =>
          have hse : s = "" := by
            rw [h] at hfalsy
            simpa [statusFalsy] using hfalsy
          subst hse
          exact ⟨"File upload result returned with no status attribute",
            by simp [classifyResults, h]⟩
      · obtain ⟨msg, hmsg⟩ := ih.2 ⟨x, hx', hfalsy⟩
        cases h : r.status with
        | none =>
          exact ⟨"File upload result returned with no status attribute",
            by simp [classifyResults, h]⟩
        | some s =>
          by_cases hse : s = ""
          · subst hse
            exact ⟨"File upload result returned with no status attribute",
              by simp [classifyResults, h]⟩
          · refine ⟨msg, ?_⟩
            simp [classifyResults, h, hse, hmsg]

theorem classify_partition_or_abort_witness :
    classifyResults
      [{ status := some "ok" }, { status := some "rejected" },
       { status := some "failed" }, { status := some "ok" }] =
      .ok { ok_uploads := [{ status := some "ok" }, { status := some "ok" }],
            failed_uploads := [{ status := some "failed" }],
            rejected_uploads := [{ status := some "rejected" }] } := by
  have h := (classify_partition_or_abort
    [{ status := some "ok" }, { status := some "rejected" },
     { status := some "failed" }, { status := some "ok" }]).1 (by decide)
  exact h

/-- C5 (counterexample): an exception raised in the parameters part of
the bootstrap pre-pass (here, `get_parameter_file` raising while parsing
the config) is not caught: it propagates out of `_upload_files` and the
per-file fan-out never runs. -/
theorem prepass_parameter_error_aborts_cex :
    uploadFilesOutcome
      [{ hasFmuRealization := true, realizationUuid := some "realization-0" }]
      { ensembleStep := .ok (),
        parameterFile := .error (.raised "invalid yaml in global config"),
        parameterSearch := .ok true }
      (fun _ => { status := some "ok" }) =
      .error (.raised "invalid yaml in global config") := rfl

/-- C5 (amended): failures of the guarded
`maybe_upload_realization_and_ensemble` step are logged and swallowed —
the batch outcome is independent of that step's result, and when the
unguarded parts of the pre-pass succeed the fan-out runs for every file
of the batch plus the pre-pass's injected records; but exceptions raised
in the parameters bootstrap (or by a realization block without a `uuid`
key) propagate and abort the batch. -/
theorem prepass_ensemble_failure_swallowed (files : List JobFile)
    (env env' : PrePassEnv) (uploadOne : JobFile → UploadResult)
    (hpf : env.parameterFile = env'.parameterFile)
    (hps : env.parameterSearch = env'.parameterSearch) :
    uploadFilesOutcome files env uploadOne =
      uploadFilesOutcome files env' uploadOne ∧
    (∀ pfOpt mustUpload,
      env.parameterFile = .ok pfOpt →
      env.parameterSearch = .ok mustUpload →
      (∀ f, files.find? (·.hasFmuRealization) = some f →
        f.realizationUuid ≠ none) →
      uploadFilesOutcome files env uploadOne =
        .ok ((files ++ prePassExtra files env).map uploadOne)) := by
  have hpb : parametersBootstrap files env = parametersBootstrap files env' := by
    unfold parametersBootstrap
    rw [hpf, hps]
  have hpp : prePass files env = prePass files env' := by
    unfold prePass
    cases files.find? (·.hasFmuRealization) with
    | none => rfl
    | some f =>
      dsimp only
      cases f.realizationUuid with
      | none => rfl
      | some rid =>
        dsimp only
        cases env.ensembleStep <;> cases env'.ensembleStep <;>
          (dsimp only; exact hpb)
  constructor
  · unfold uploadFilesOutcome
    rw [hpp]
  · intro pfOpt mustUpload hpfok hpsok huuid
    have hstage : prePass files env = .ok (files ++ prePassExtra files env) := by
      unfold prePass prePassExtra
      cases hfind : files.find? (·.hasFmuRealization) with
      | none => simp
      | some f =>
        dsimp only
        cases hu : f.realizationUuid with
        | none => exact absurd hu (huuid f hfind)
        | some rid =>
          dsimp only
          have hbody : parametersBootstrap files env =
              .ok (files ++
                (match env.parameterFile with
                 | .ok (some paramfile) =>
                   (match env.parameterSearch with
                    | .ok true => [paramfile]
                    | _ => [])
                 | _ => [])) := by
            unfold parametersBootstrap
            rw [hpfok, hpsok]
            cases pfOpt with
            | none => simp
            | some paramfile => cases mustUpload <;> simp
          cases env.ensembleStep <;> (dsimp only; exact hbody)
    unfold uploadFilesOutcome
    rw [hstage]

theorem prepass_ensemble_failure_swallowed_witness :
    uploadFilesOutcome
      [{ hasFmuRealization := true, realizationUuid := some "realization-0" }]
      { ensembleStep := .error (.raised "409 conflict creating ensemble"),
        parameterFile := .ok none,
        parameterSearch := .ok true }
      (fun _ => { status := some "ok" }) =
      .ok [{ status := some "ok" }] := by
  have h := (prepass_ensemble_failure_swallowed
    [{ hasFmuRealization := true, realizationUuid := some "realization-0" }]
    { ensembleStep := .error (.raised "409 conflict creating ensemble"),
      parameterFile := .ok none,
      parameterSearch := .ok true }
    { ensembleStep := .error (.raised "409 conflict creating ensemble"),
      parameterFile := .ok none,
      parameterSearch := .ok true }
    (fun _ => { status := some "ok" }) rfl rfl).2 none true rfl rfl
    (fun f hf => by
      cases hf
      simp)
  simpa [prePassExtra] using h

/-- Assigning a key and reading it back yields the assigned value,
whether the key was already bound (overwrite) or not (append). -/
theorem dictGet_dictSet_self (entries : List (String × PyVal)) (k : String)
    (v : PyVal) : dictGet (dictSet entries k v) k = some v := by
  induction entries with
  | nil => simp [dictSet, dictGet]
  | cons kv rest ih =>
    by_cases hk : kv.1 = k
    · have hany : (kv :: rest).any (fun kv => kv.1 = k) = true := by
        simp [hk]
      unfold dictSet
      rw [if_pos hany]
      simp [dictGet, hk]
    · by_cases hrest : rest.any (fun kv => kv.1 = k) = true
      · have hany : (kv :: rest).any (fun kv => kv.1 = k) = true := by
          simp [hrest]
        unfold dictSet at ih ⊢
        rw [if_pos hany]
        rw [if_pos hrest] at ih
        simp only [List.map_cons, if_neg hk]
        rw [dictGet] at ih ⊢
        rw [List.find?_cons_of_neg]
        · exact ih
        · simpa using hk
      · have hanyF : ¬((kv :: rest).any (fun kv => kv.1 = k) = true) := by
          simp only [List.any_cons, Bool.or_eq_true, not_or]
          exact ⟨by simpa using hk, hrest⟩
        unfold dictSet at ih ⊢
        rw [if_neg hanyF]
        rw [if_neg hrest] at ih
        rw [List.cons_append]
        rw [dictGet] at ih ⊢
        rw [List.find?_cons_of_neg]
        · exact ih
        · simpa using hk

/-- C6: `FileOnDisk` construction stores under `metadata["_sumo"]` the
base64 encoding of the MD5 digest of exactly the bytes read from the
file, and their count: `blob_md5` equals the digest pipeline re-applied
to the stored `byte_string` (which is the content read at construction),
and `blob_size` equals its length. -/
theorem file_on_disk_blob_md5_size
    (md5digest : List UInt8 → List UInt8) (b64encode : List UInt8 → String)
    (parseYamlFs : String → Option (List (String × PyVal)))
    (readFs : String → Option (List UInt8))
    (path metadataPath : String) (fd : FileOnDisk) (bytes : List UInt8)
    (hRead : readFs path = some bytes)
    (hInit : fileOnDiskInit md5digest b64encode parseYamlFs readFs path
      metadataPath = some fd) :
    fd.byte_string = bytes ∧
    dictGet2 fd.metadata "_sumo" "blob_md5" =
      some (.str (b64encode (md5digest fd.byte_string))) ∧
    dictGet2 fd.metadata "_sumo" "blob_size" =
      some (.num (fd.byte_string.length : Int)) := by
  cases hY : parseYamlFs metadataPath with
  | none => rw [fileOnDiskInit, hY] at hInit; cases hInit
  | some parsedMetadata =>
    rw [fileOnDiskInit, hY, hRead] at hInit
    cases hInit
    refine ⟨rfl, ?_, ?_⟩
    · rw [dictGet2, dictGet_dictSet_self]
      rfl
    · rw [dictGet2, dictGet_dictSet_self]
      rfl

theorem file_on_disk_blob_md5_size_witness :
    dictGet2
      [("fmu", PyVal.dict []),
       ("_sumo", PyVal.dict [("blob_size", PyVal.num 2),
                             ("blob_md5", PyVal.str "3")])]
      "_sumo" "blob_md5" = some (PyVal.str "3") ∧
    dictGet2
      [("fmu", PyVal.dict []),
       ("_sumo", PyVal.dict [("blob_size", PyVal.num 2),
                             ("blob_md5", PyVal.str "3")])]
      "_sumo" "blob_size" = some (PyVal.num 2) := by
  have h := file_on_disk_blob_md5_size
    (fun bs => bs ++ [1]) (fun bs => toString bs.length)
    (fun _ => some [("fmu", PyVal.dict [])]) (fun _ => some [104, 105])
    "/scratch/a.bin" "/scratch/.a.bin.yml" _ [104, 105] rfl rfl
  exact ⟨h.2.1, h.2.2⟩

mutual

/-- After sanitization no datetime object remains anywhere in the value. -/
theorem sanitize_no_datetime :
    ∀ v : PyVal, containsDatetime (sanitize v) = false
  | .datetime _ => rfl
  | .str _ => rfl
  | .num _ => rfl
  | .dict entries => by
    rw [sanitize, containsDatetime]
    exact sanitizeFields_no_datetime entries
  | .list elems => by
    rw [sanitize, containsDatetime]
    exact sanitizeElems_no_datetime elems

theorem sanitizeFields_no_datetime :
    ∀ entries, containsDatetimeFields (sanitizeFields entries) = false
  | [] => rfl
  | (k, v) :: rest => by
    rw [sanitizeFields, containsDatetimeFields]
    rw [sanitize_no_datetime v, sanitizeFields_no_datetime rest]
    rfl

theorem sanitizeElems_no_datetime :
    ∀ elems, containsDatetimeElems (sanitizeElems elems) = false
  | [] => rfl
  | v :: rest => by
    rw [sanitizeElems, containsDatetimeElems]
    rw [sanitize_no_datetime v, sanitizeElems_no_datetime rest]
    rfl

end

mutual

/-- A value without any embedded datetime object is left unchanged. -/
theorem sanitize_id_of_clean :
    ∀ v : PyVal, containsDatetime v = false → sanitize v = v
  | .datetime _ => by intro h; rw [containsDatetime] at h; cases h
  | .str _ => fun _ => rfl
  | .num _ => fun _ => rfl
  | .dict entries => by
    intro h
    rw [containsDatetime] at h
    rw [sanitize, sanitizeFields_id_of_clean entries h]
  | .list elems => by
    intro h
    rw [containsDatetime] at h
    rw [sanitize, sanitizeElems_id_of_clean elems h]

theorem sanitizeFields_id_of_clean :
    ∀ entries, containsDatetimeFields entries = false →
      sanitizeFields entries = entries
  | [] => fun _ => rfl
  | (k, v) :: rest => by
    intro h
    rw [containsDatetimeFields, Bool.or_eq_false_iff] at h
    rw [sanitizeFields, sanitize_id_of_clean v h.1,
      sanitizeFields_id_of_clean rest h.2]

theorem sanitizeElems_id_of_clean :
    ∀ elems, containsDatetimeElems elems = false →
      sanitizeElems elems = elems
  | [] => fun _ => rfl
  | v :: rest => by
    intro h
    rw [containsDatetimeElems, Bool.or_eq_false_iff] at h
    rw [sanitizeElems, sanitize_id_of_clean v h.1,
      sanitizeElems_id_of_clean rest h.2]

end

/-- C8: datetime sanitization replaces every embedded datetime value —
at any depth, including inside nested mappings and sequences — with its
ISO-8601 (`isoformat`) string, and leaves every non-datetime value
unchanged; on mappings and sequences it rebuilds the structure
pointwise, preserving keys and order. -/
theorem sanitize_datetimes_spec (v : PyVal) :
    containsDatetime (sanitize v) = false ∧
    (containsDatetime v = false → sanitize v = v) ∧
    (∀ iso, sanitize (.datetime iso) = .str iso) ∧
    (∀ entries, sanitize (.dict entries) = .dict (sanitizeFields entries)) ∧
    (∀ elems, sanitize (.list elems) = .list (sanitizeElems elems)) :=
  ⟨sanitize_no_datetime v, sanitize_id_of_clean v, fun _ => rfl,
   fun _ => rfl, fun _ => rfl⟩

theorem sanitize_datetimes_spec_witness :
    containsDatetime (sanitize (.dict
      [("created", .datetime "2020-01-01T00:00:00"),
       ("nested", .list [.datetime "2021-06-30T12:00:00", .num 3])])) =
      false ∧
    sanitize (.dict [("name", .str "case"), ("count", .num 2)]) =
      .dict [("name", .str "case"), ("count", .num 2)] :=
  ⟨(sanitize_datetimes_spec (.dict
      [("created", .datetime "2020-01-01T00:00:00"),
       ("nested", .list [.datetime "2021-06-30T12:00:00", .num 3])])).1,
   (sanitize_datetimes_spec
      (.dict [("name", .str "case"), ("count", .num 2)])).2.1 rfl⟩

end FmuSumo
